import Mathlib

/-!
Verification of the socialArxiv ingestion + retrieval + completion pipeline.

The definitions below are shallow embeddings of the JavaScript/TypeScript
source: `chunkText` and the point construction from `scripts/ingest.mjs`,
and `formatContext`, the Qdrant scroll loop and the LLM fallback loop from
the chat API route.  Program strings are modelled as `List Char`.
-/

/-- Program strings are modelled as lists of characters. -/
abbrev Str := List Char

/-- Characters removed by JavaScript `String.prototype.trim` (the white
space and line terminator code points that can occur in this pipeline). -/
def isJsWS (c : Char) : Bool :=
  c = ' ' || c = '\t' || c = '\n' || c = '\r' ||
  c = Char.ofNat 11 || c = Char.ofNat 12 || c = Char.ofNat 160 || c = Char.ofNat 0xFEFF

/-- JavaScript `s.trim()`: strip leading and trailing whitespace. -/
def jsTrim (s : Str) : Str :=
  ((s.dropWhile isJsWS).reverse.dropWhile isJsWS).reverse

/-!
### Chunker (`chunkText` in `scripts/ingest.mjs`)

```js
function chunkText(text, size, overlap) {
    const chunks = [];
    let start = 0;
    while (start < text.length) {
        const end = start + size;
        chunks.push(text.slice(start, end));
        start += size - overlap;
        if (size - overlap <= 0) {
            if (start === 0 && text.length > 0) break;
            start = end;
        }
    }
    return chunks.filter(chunk => chunk && chunk.trim().length > 0);
}
```

The loop is embedded with explicit fuel, one unit per iteration, because
for `size = 0` the JavaScript loop genuinely diverges; the `start === 0`
test (performed after `start += size - overlap`) is equivalent to
`start + size = overlap` over the pre-increment value, which keeps every
quantity a natural number.  `chunkAux` returns `none` exactly when the
fuel is exhausted before the loop's own exit.
-/

/-- One JS loop iteration per unit of fuel; `window` is
`text.slice(start, start + size)`. -/
def chunkAux : ℕ → List Char → ℕ → ℕ → ℕ → Option (List (List Char))
  | 0, text, _, _, start =>
      if start < text.length then none else some []
  | fuel + 1, text, size, overlap, start =>
      if start < text.length then
        let window := (text.drop start).take size
        if size ≤ overlap then
          if start + size = overlap then some [window]
          else (chunkAux fuel text size overlap (start + size)).map (window :: ·)
        else
          (chunkAux fuel text size overlap (start + (size - overlap))).map (window :: ·)
      else some []

/-- The filter applied at the end of `chunkText`:
`chunk && chunk.trim().length > 0`. -/
def keepChunk (c : Str) : Bool := !c.isEmpty && !(jsTrim c).isEmpty

/-- `chunkText(text, size, overlap)`, run with `text.length` iterations of
fuel (enough whenever `size ≥ 1`, as proved below). -/
def chunkText (text : List Char) (size overlap : ℕ) : Option (List (List Char)) :=
  (chunkAux text.length text size overlap 0).map (List.filter keepChunk)

example : chunkText ['a', 'b', 'c', 'd'] 2 1 =
    some [['a', 'b'], ['b', 'c'], ['c', 'd'], ['d']] := by decide
example : chunkText ['a', 'b'] 1 1 = some [['a']] := by decide
example : chunkText ['a', ' ', 'b'] 1 0 = some [['a'], ['b']] := by decide

/-!
### Deterministic point ids (`scripts/ingest.mjs`)

```js
const QDRANT_UUID_NAMESPACE = '1b671a64-40d5-491e-99b0-da01ff1f3341';
...
for (let i = 0; i < chunks.length; i++) {
    const chunkId = uuidv5(`${paperId}_${i}`, QDRANT_UUID_NAMESPACE);
    qdrantPointsBatch.push({
        id: chunkId,
        vector: chunkEmbeddings[i],
        payload: { paperId: paperId, chunkText: chunks[i], chunkIndex: i },
    });
    ...
}
```

`uuidv5` is the external `uuid` library's deterministic name-based UUID
(a pure function of name and namespace); it is taken as a function
parameter so that theorems quantify over it.
-/

/-- The fixed namespace UUID used for point ids. -/
def QDRANT_UUID_NAMESPACE : Str := "1b671a64-40d5-491e-99b0-da01ff1f3341".toList

/-- The id of the point for chunk `i` of document `paperId`:
`uuidv5(paperId + "_" + i, QDRANT_UUID_NAMESPACE)`. -/
def chunkPointId (uuidv5 : Str → Str → Str) (paperId : Str) (i : ℕ) : Str :=
  uuidv5 (paperId ++ ['_'] ++ (toString i).toList) QDRANT_UUID_NAMESPACE

/-- Payload written with every ingested point. -/
structure IngestPayload where
  paperId : Str
  chunkText : Str
  chunkIndex : ℕ
deriving DecidableEq

/-- A Qdrant point as built by the ingestion loop; the vector type is a
parameter (the source stores float arrays). -/
structure QdrantPoint (V : Type) where
  id : Str
  vector : V
  payload : IngestPayload
deriving DecidableEq

/-- The list of points built for one document by the `for` loop over
`chunks` in `ingestData` (embedding `i` is `chunkEmbeddings[i]`). -/
def buildPoints {V : Type} (uuidv5 : Str → Str → Str) (paperId : Str)
    (chunks : List Str) (embeds : ℕ → V) : List (QdrantPoint V) :=
  (List.range chunks.length).map fun i =>
    ⟨chunkPointId uuidv5 paperId i, embeds i, ⟨paperId, chunks.getD i [], i⟩⟩

/-!
### Context assembly (`formatContext` in the chat API route)

```js
function formatContext(chunks) {
    if (!chunks || chunks.length === 0) {
        return "No text data was retrieved for the paper.";
    }
    chunks.sort((a, b) => (a.payload?.chunkIndex ?? Infinity) - (b.payload?.chunkIndex ?? Infinity));
    return chunks.map(chunk => chunk.payload?.chunkText || '').join('\n');
}
```

`Array.prototype.sort` with this comparator is a stable sort by the key
`payload?.chunkIndex ?? Infinity` (two missing keys compare as equal,
since `Infinity - Infinity` is `NaN`, which the sort treats as `0`);
it is embedded as Mathlib's stable `List.insertionSort`.
-/

/-- A point as returned by the store's scroll: the payload and each of its
fields may be absent on malformed points. -/
structure ChunkPayload where
  chunkIndex : Option ℕ
  chunkText : Option Str
deriving DecidableEq

/-- A retrieved chunk (a scroll point); only the payload is consulted. -/
structure RetrievedChunk where
  payload : Option ChunkPayload
deriving DecidableEq

/-- `chunk.payload?.chunkIndex`, with `none` standing for
`undefined` (hence `?? Infinity` in the comparator). -/
def keyOf (c : RetrievedChunk) : Option ℕ := c.payload.bind ChunkPayload.chunkIndex

/-- `chunk.payload?.chunkText || ''`. -/
def textOf (c : RetrievedChunk) : Str := (c.payload.bind ChunkPayload.chunkText).getD []

/-- The comparator's ordering on keys: `none` plays `Infinity`
(sorts after every finite index; two `none`s compare as equal). -/
def keyLE : Option ℕ → Option ℕ → Bool
  | none, none => true
  | none, some _ => false
  | some _, none => true
  | some x, some y => decide (x ≤ y)

/-- The sort relation on retrieved chunks. -/
def chunkLE (a b : RetrievedChunk) : Prop := keyLE (keyOf a) (keyOf b) = true

instance : DecidableRel chunkLE :=
  fun a b => inferInstanceAs (Decidable (keyLE (keyOf a) (keyOf b) = true))

instance chunkLE_isTotal : IsTotal RetrievedChunk chunkLE :=
  ⟨by
    intro a b
    unfold chunkLE
    rcases keyOf a with _ | x <;> rcases keyOf b with _ | y <;> simp [keyLE] <;> omega⟩

instance chunkLE_isTrans : IsTrans RetrievedChunk chunkLE :=
  ⟨by
    intro a b c
    unfold chunkLE
    rcases keyOf a with _ | x <;> rcases keyOf b with _ | y <;> rcases keyOf c with _ | z <;>
      simp [keyLE] <;> omega⟩

/-- The fixed sentinel returned when no chunks were retrieved. -/
def noDataSentinel : Str := "No text data was retrieved for the paper.".toList

/-- `formatContext(chunks)`. -/
def formatContext (chunks : List RetrievedChunk) : Str :=
  if chunks.length = 0 then noDataSentinel
  else List.intercalate ['\n'] ((List.insertionSort chunkLE chunks).map textOf)

/-!
### Scroll pagination loop (chat API route)

```js
let allChunks = [];
let offset;
while (true) {
    const scrollResponse = await qdrantClient.scroll(..., { ..., offset: offset });
    const { points, next_page_offset } = scrollResponse;
    allChunks.push(...points);
    offset = next_page_offset;
    if (offset === null || points.length === 0) break;
}
```

The store's successive responses are modelled as a list of pages consumed
in order; the loop recurses down that list.  The `Bool` in the result is
`true` when the loop stopped through its own exit condition, `false` when
the supplied page sequence ran out first.
-/

/-- One scroll response: a page of points and the next cursor
(`none` models `null`). -/
structure ScrollPage (P C : Type) where
  points : List P
  next_page_offset : Option C
deriving DecidableEq

/-- The loop's per-page exit test, `offset === null || points.length === 0`,
evaluated after accumulating the page. -/
def scrollStop {P C : Type} (page : ScrollPage P C) : Bool :=
  page.next_page_offset.isNone || (page.points.length == 0)

/-- The retrieval loop over the modelled page sequence, accumulating into
`allChunks`. -/
def scrollLoop {P C : Type} : List (ScrollPage P C) → List P → List P × Bool
  | [], allChunks => (allChunks, false)
  | page :: rest, allChunks =>
      if scrollStop page then (allChunks ++ page.points, true)
      else scrollLoop rest (allChunks ++ page.points)

/-!
### LLM fallback loop and final response (chat API route)

```js
for (const modelName of llmModelNames) {
    const openRouterResponse = await fetch(...);
    if (openRouterResponse.status === 429) {
        lastError = `Rate limit hit on ${modelName}.`;
        continue;
    }
    if (!openRouterResponse.ok) {
        lastError = `Model ${modelName} failed with status ${openRouterResponse.status}.`;
        break;
    }
    const responseData = await openRouterResponse.json();
    finalAiResponseText = responseData.choices?.[0]?.message?.content?.trim()
        || "I couldn't find the comprehensive answer in the full document text.";
    success = true;
    break;
}
if (!success) {
    const errorMsg = finalAiResponseText || lastError || "All LLM models failed to return a valid response.";
    return NextResponse.json({ response: `System Error: ${errorMsg}` }, { status: 500 });
}
return NextResponse.json({ response: finalAiResponseText }, { status: 200, ... });
```

Each provider attempt is modelled by its observed HTTP status and the
optional `choices[0].message.content` of its body.  `Response.ok` is
`200 ≤ status ≤ 299`.
-/

/-- The outcome of one provider attempt. -/
structure LLMResponse where
  status : ℕ
  content : Option Str
deriving DecidableEq

/-- `Response.ok`: status in the inclusive range 200–299. -/
def isOk (status : ℕ) : Bool := decide (200 ≤ status) && decide (status ≤ 299)

/-- The sentinel used when the response body lacks message content. -/
def couldntFindSentinel : Str :=
  "I couldn".toList ++ [Char.ofNat 39] ++
    "t find the comprehensive answer in the full document text.".toList

/-- `responseData.choices?.[0]?.message?.content?.trim() || sentinel`. -/
def extractAnswer (content : Option Str) : Str :=
  match content with
  | none => couldntFindSentinel
  | some s => if jsTrim s = [] then couldntFindSentinel else jsTrim s

/-- `lastError` after a 429 from provider `name`. -/
def rateLimitMsg (name : Str) : Str :=
  "Rate limit hit on ".toList ++ name ++ ['.']

/-- `lastError` after a hard (non-429, non-2xx) failure from provider
`name` with the given status. -/
def hardFailMsg (name : Str) (status : ℕ) : Str :=
  "Model ".toList ++ name ++ " failed with status ".toList ++ (toString status).toList ++ ['.']

/-- Result of the fallback loop. -/
inductive LoopResult where
  | success (answer : Str)
  | failure (lastError : Option Str)
deriving DecidableEq

/-- The fallback loop over the ordered provider attempts, threading
`lastError`; the second component lists the providers actually called. -/
def fallbackRun : List (Str × LLMResponse) → Option Str → LoopResult × List Str
  | [], lastError => (LoopResult.failure lastError, [])
  | (name, resp) :: rest, _lastError =>
      if resp.status = 429 then
        ((fallbackRun rest (some (rateLimitMsg name))).1,
          name :: (fallbackRun rest (some (rateLimitMsg name))).2)
      else if isOk resp.status = false then
        (LoopResult.failure (some (hardFailMsg name resp.status)), [name])
      else
        (LoopResult.success (extractAnswer resp.content), [name])

/-- The default message when no error was ever recorded. -/
def defaultFailMsg : Str := "All LLM models failed to return a valid response.".toList

/-- The value of `lastError` after a run in which every attempt was rate
limited: the rate-limit message of the last attempt, or the incoming
`lastError` when there was no attempt. -/
def lastRateLimitReason (attempts : List (Str × LLMResponse)) (lastError : Option Str) :
    Option Str :=
  match attempts.getLast? with
  | none => lastError
  | some a => some (rateLimitMsg a.1)

/-- The `response` body field and HTTP status returned by the route after
the fallback loop (`finalAiResponseText` is the empty string on the
failure path, so `errorMsg = lastError || default`). -/
def askLLM (attempts : List (Str × LLMResponse)) : Str × ℕ :=
  match (fallbackRun attempts none).1 with
  | LoopResult.success ans => (ans, 200)
  | LoopResult.failure lastError =>
      let errorMsg := match lastError with
        | none => defaultFailMsg
        | some e => if e = [] then defaultFailMsg else e
      ("System Error: ".toList ++ errorMsg, 500)

example :
    askLLM [(['A'], ⟨429, none⟩), (['B'], ⟨429, none⟩)] =
      ("System Error: ".toList ++ rateLimitMsg ['B'], 500) := by decide
example :
    askLLM [(['A'], ⟨429, none⟩), (['B'], ⟨200, some ['X']⟩), (['C'], ⟨200, some ['Y']⟩)] =
      (['X'], 200) := by decide
example :
    (fallbackRun [(['A'], ⟨429, none⟩), (['B'], ⟨500, none⟩), (['C'], ⟨200, some ['Y']⟩)] none).2 =
      [['A'], ['B']] := by decide

/-!
## Lemmas about the chunker
-/

/-- With `size ≥ 1` every iteration advances `start` by at least one, so
`text.length - start` units of fuel suffice for the loop to finish. -/
theorem chunkAux_isSome (fuel : ℕ) : ∀ (text : List Char) (size overlap start : ℕ),
    1 ≤ size → text.length - start ≤ fuel →
    (chunkAux fuel text size overlap start).isSome = true := by
  induction fuel with
  | zero =>
    intro text size overlap start hs hf
    have h : ¬ start < text.length := by omega
    simp [chunkAux, h]
  | succ fuel ih =>
    intro text size overlap start hs hf
    by_cases h : start < text.length
    · by_cases hso : size ≤ overlap
      · by_cases heq : start + size = overlap
        · simp [chunkAux, h, hso, heq]
        · have hrec := ih text size overlap (start + size) hs (by omega)
          obtain ⟨l, hl⟩ := Option.isSome_iff_exists.mp hrec
          simp [chunkAux, h, hso, heq, hl]
      · have hrec := ih text size overlap (start + (size - overlap)) hs (by omega)
        obtain ⟨l, hl⟩ := Option.isSome_iff_exists.mp hrec
        simp [chunkAux, h, hso, hl]
    · simp [chunkAux, h]

/-- When `overlap < size` (positive step), concatenating the first
`size - overlap` characters of each window rebuilds the suffix of the
text from the loop's starting offset. -/
theorem chunkAux_cover (fuel : ℕ) : ∀ (text : List Char) (size overlap start : ℕ)
    (l : List (List Char)), overlap < size →
    chunkAux fuel text size overlap start = some l →
    (l.map (List.take (size - overlap))).join = text.drop start := by
  induction fuel with
  | zero =>
    intro text size overlap start l hso h
    by_cases hlt : start < text.length
    · simp [chunkAux, hlt] at h
    · simp [chunkAux, hlt] at h
      subst h
      have hge : text.length ≤ start := by omega
      simp [List.drop_eq_nil_of_le hge]
  | succ fuel ih =>
    intro text size overlap start l hso h
    have hnot : ¬ size ≤ overlap := by omega
    by_cases hlt : start < text.length
    · simp only [chunkAux, hlt, if_true, hnot, if_false] at h
      rcases hrec : chunkAux fuel text size overlap (start + (size - overlap)) with _ | l'
      · rw [hrec] at h
        simp at h
      · rw [hrec] at h
        simp only [Option.map_some'] at h
        have hjoin := ih text size overlap (start + (size - overlap)) l' hso hrec
        injection h with h2
        subst h2
        simp only [List.map_cons, List.join_cons, hjoin]
        rw [List.take_take, Nat.min_eq_left (by omega)]
        rw [show text.drop (start + (size - overlap)) =
              (text.drop start).drop (size - overlap) by
            rw [List.drop_drop]]
        exact List.take_append_drop _ _
    · simp [chunkAux, hlt] at h
      subst h
      have hge : text.length ≤ start := by omega
      simp [List.drop_eq_nil_of_le hge]

/-- Claim C7: `chunkText text size overlap` terminates (the fuelled
embedding of the loop completes within `text.length` iterations) for
every text and every overlap, whenever `size ≥ 1`, including the
degenerate cases `overlap = size` and `overlap > size`. -/
theorem chunkText_terminates (text : List Char) (size overlap : ℕ) (hs : 1 ≤ size) :
    (chunkText text size overlap).isSome = true := by
  have h := chunkAux_isSome text.length text size overlap 0 hs (by omega)
  obtain ⟨l, hl⟩ := Option.isSome_iff_exists.mp h
  simp [chunkText, hl]

/-- Witness for C7 at the degenerate input `size = 1 < overlap = 5`. -/
theorem chunkText_terminates_witness :
    1 ≤ 1 ∧ (chunkText ['a', 'b', 'c'] 1 5).isSome = true :=
  ⟨by decide, chunkText_terminates ['a', 'b', 'c'] 1 5 (by decide)⟩

/-- Claim C6 (amended): for `size > overlap ≥ 0`, coverage holds for the
window sequence **before** the whitespace-only filter: concatenating the
first `size - overlap` characters of each pre-filter window reconstructs
the entire input exactly. -/
theorem chunk_prefilter_coverage (text : List Char) (size overlap : ℕ)
    (h : overlap < size) :
    ∃ l, chunkAux text.length text size overlap 0 = some l ∧
      (l.map (List.take (size - overlap))).join = text := by
  have hs := chunkAux_isSome text.length text size overlap 0 (by omega) (by omega)
  obtain ⟨l, hl⟩ := Option.isSome_iff_exists.mp hs
  refine ⟨l, hl, ?_⟩
  have := chunkAux_cover text.length text size overlap 0 l h hl
  simpa using this

/-- Witness for the amended C6 at `text = "a b"`, `size = 2`,
`overlap = 1`. -/
theorem chunk_prefilter_coverage_witness :
    1 < 2 ∧ ∃ l, chunkAux (List.length ['a', ' ', 'b']) ['a', ' ', 'b'] 2 1 0 = some l ∧
      (l.map (List.take (2 - 1))).join = ['a', ' ', 'b'] :=
  ⟨by decide, chunk_prefilter_coverage ['a', ' ', 'b'] 2 1 (by decide)⟩

/-- Counterexample to C6 as stated: `chunkText` filters out the
whitespace-only window `" "`, so concatenating the non-overlapping
portions of the chunks it returns for `text = "a b"`, `size = 1`,
`overlap = 0` yields `"ab"`, which does not cover the input. -/
theorem chunk_coverage_counterexample :
    chunkText ['a', ' ', 'b'] 1 0 = some [['a'], ['b']] ∧
    ¬ (([['a'], ['b']].map (List.take (1 - 0))).join = ['a', ' ', 'b']) := by decide

/-- Claim C2 (evaluation at the failing input): for `text = "ab"`,
`size = 1`, `overlap = 1` the loop pushes the first window and then hits
the `start === 0` break, returning only `["a"]` instead of the mandated
non-overlapping windows `["a", "b"]` covering the whole text. -/
theorem chunkText_degenerate_step_eval :
    chunkAux (List.length ['a', 'b']) ['a', 'b'] 1 1 0 = some [['a']] ∧
    chunkText ['a', 'b'] 1 1 = some [['a']] ∧
    ¬ ([['a']] = [['a'], ['b']]) := by decide

/-!
## The fallback loop
-/

/-- Claim C1: the per-attempt decision of the fallback loop.  On 429 the
rate-limit reason is recorded and the loop proceeds to the remaining
providers; on any other non-2xx status the loop stops with the hard
failure reason and calls no remaining provider; on a 2xx response it
returns the parsed answer (sentinel when content is absent) immediately,
calling no further provider. -/
theorem fallback_per_attempt_decision (name : Str) (resp : LLMResponse)
    (rest : List (Str × LLMResponse)) (lastError : Option Str) :
    (resp.status = 429 →
      fallbackRun ((name, resp) :: rest) lastError =
        ((fallbackRun rest (some (rateLimitMsg name))).1,
          name :: (fallbackRun rest (some (rateLimitMsg name))).2)) ∧
    (resp.status ≠ 429 → isOk resp.status = false →
      fallbackRun ((name, resp) :: rest) lastError =
        (LoopResult.failure (some (hardFailMsg name resp.status)), [name])) ∧
    (isOk resp.status = true →
      fallbackRun ((name, resp) :: rest) lastError =
        (LoopResult.success (extractAnswer resp.content), [name])) := by
  refine ⟨fun h429 => ?_, fun h429 hok => ?_, fun hok => ?_⟩
  · simp [fallbackRun, h429]
  · simp [fallbackRun, h429, hok]
  · have h429 : resp.status ≠ 429 := by
      intro h
      rw [h] at hok
      simp [isOk] at hok
    simp [fallbackRun, h429, hok]

/-- Witness for C1: a rate-limited attempt, a hard failure with a
would-succeed provider behind it (never called), and a success. -/
theorem fallback_per_attempt_decision_witness :
    fallbackRun [(['A'], ⟨429, none⟩), (['B'], ⟨200, some ['X']⟩)] none =
      ((fallbackRun [(['B'], ⟨200, some ['X']⟩)] (some (rateLimitMsg ['A']))).1,
        ['A'] :: (fallbackRun [(['B'], ⟨200, some ['X']⟩)] (some (rateLimitMsg ['A']))).2) ∧
    fallbackRun [(['B'], ⟨500, none⟩), (['C'], ⟨200, some ['X']⟩)] none =
      (LoopResult.failure (some (hardFailMsg ['B'] 500)), [['B']]) ∧
    fallbackRun [(['C'], ⟨200, some ['X']⟩)] none =
      (LoopResult.success (extractAnswer (some ['X'])), [['C']]) :=
  ⟨(fallback_per_attempt_decision ['A'] ⟨429, none⟩ _ none).1 (by decide),
   (fallback_per_attempt_decision ['B'] ⟨500, none⟩ _ none).2.1 (by decide) (by decide),
   (fallback_per_attempt_decision ['C'] ⟨200, some ['X']⟩ _ none).2.2 (by decide)⟩

/-!
## Context assembly
-/

/-- Claim C9: with zero retrieved chunks `formatContext` returns the
fixed no-data sentinel, which is not the empty string. -/
theorem formatContext_empty_sentinel :
    formatContext [] = noDataSentinel ∧ noDataSentinel ≠ [] :=
  ⟨rfl, by decide⟩

/-!
## The scroll pagination loop
-/

/-- The loop from any accumulator: if page `k` is the first page whose
exit test fires, the loop stops there having accumulated exactly the
points of pages `0..k`. -/
theorem scrollLoop_go {P C : Type} :
    ∀ (pages : List (ScrollPage P C)) (k : ℕ) (page : ScrollPage P C) (acc : List P),
      pages[k]? = some page → scrollStop page = true →
      (∀ j pg, j < k → pages[j]? = some pg → scrollStop pg = false) →
      scrollLoop pages acc =
        (acc ++ ((pages.take (k + 1)).map ScrollPage.points).join, true) := by
  intro pages
  induction pages with
  | nil =>
    intro k page acc hk
    simp at hk
  | cons p rest ih =>
    intro k page acc hk hstop hmin
    cases k with
    | zero =>
      simp only [List.getElem?_cons_zero, Option.some.injEq] at hk
      subst hk
      simp [scrollLoop, hstop]
    | succ j =>
      have hp : scrollStop p = false := hmin 0 p (by omega) (by simp)
      have hk' : rest[j]? = some page := by simpa using hk
      have hmin' : ∀ i pg, i < j → rest[i]? = some pg → scrollStop pg = false := by
        intro i pg hi hpg
        exact hmin (i + 1) pg (by omega) (by simpa using hpg)
      simp only [scrollLoop, hp, Bool.false_eq_true, if_false]
      rw [ih j page (acc ++ p.points) hk' hstop hmin']
      simp [List.append_assoc]

/-- Claim C3: the retrieval loop accumulates each page's points and stops
at the first page whose returned cursor is null or which is empty; every
point of every page fetched up to (and including) the stopping page is in
the accumulated result, and the loop terminates by its own exit test. -/
theorem scroll_accumulates_until_first_stop {P C : Type}
    (pages : List (ScrollPage P C)) (k : ℕ) (page : ScrollPage P C)
    (hk : pages[k]? = some page) (hstop : scrollStop page = true)
    (hmin : ∀ j pg, j < k → pages[j]? = some pg → scrollStop pg = false) :
    scrollLoop pages [] =
      (((pages.take (k + 1)).map ScrollPage.points).join, true) := by
  simpa using scrollLoop_go pages k page [] hk hstop hmin

/-- Witness for C3: the second page is empty with a non-null cursor, so
the loop stops immediately after it; the third page is never fetched. -/
theorem scroll_accumulates_until_first_stop_witness :
    scrollLoop [(⟨[1, 2], some 7⟩ : ScrollPage ℕ ℕ), ⟨[], some 8⟩, ⟨[3], none⟩] [] =
      ([1, 2], true) := by
  have h := scroll_accumulates_until_first_stop
      [(⟨[1, 2], some 7⟩ : ScrollPage ℕ ℕ), ⟨[], some 8⟩, ⟨[3], none⟩] 1 ⟨[], some 8⟩
      (by decide) (by decide) ?_
  · simpa using h
  · intro j pg hj hpg
    have hj0 : j = 0 := by omega
    subst hj0
    simp only [List.getElem?_cons_zero, Option.some.injEq] at hpg
    subst hpg
    decide

/-!
## Deterministic point ids
-/

/-- Claim C4: the chunk point id is a deterministic pure function of the
pair (document id, chunk index): two ingestion runs over the same number
of chunks (unchanged chunking parameters) with arbitrary, even
differently-typed, embeddings produce identical id sequences, and the id
at index `i` is exactly `chunkPointId uuidv5 paperId i`. -/
theorem chunk_point_id_deterministic {V W : Type} (uuidv5 : Str → Str → Str)
    (paperId : Str) (chunks1 chunks2 : List Str) (e1 : ℕ → V) (e2 : ℕ → W)
    (hlen : chunks1.length = chunks2.length) :
    (buildPoints uuidv5 paperId chunks1 e1).map QdrantPoint.id =
      (buildPoints uuidv5 paperId chunks2 e2).map QdrantPoint.id ∧
    ∀ i, i < chunks1.length →
      ((buildPoints uuidv5 paperId chunks1 e1).map QdrantPoint.id)[i]? =
        some (chunkPointId uuidv5 paperId i) := by
  constructor
  · simp only [buildPoints, List.map_map, hlen]
    rfl
  · intro i hi
    simp [buildPoints, List.map_map, List.getElem?_map, List.getElem?_range hi,
      Function.comp]

/-- Witness for C4: two runs over two chunks with different embedding
functions (and even different vector types) yield the same ids, each the
pure function of the document id and the index. -/
theorem chunk_point_id_deterministic_witness :
    List.length [['a'], ['b']] = List.length [['c'], ['d']] ∧
    ((buildPoints (fun n ns => n ++ ns) ['p'] [['a'], ['b']] (fun i => i)).map
        QdrantPoint.id =
      (buildPoints (fun n ns => n ++ ns) ['p'] [['c'], ['d']] (fun i => (i + 7 : ℤ))).map
        QdrantPoint.id ∧
    ∀ i, i < List.length [['a'], ['b']] →
      ((buildPoints (fun n ns => n ++ ns) ['p'] [['a'], ['b']] (fun i => i)).map
          QdrantPoint.id)[i]? =
        some (chunkPointId (fun n ns => n ++ ns) ['p'] i)) :=
  ⟨by decide,
   chunk_point_id_deterministic (fun n ns => n ++ ns) ['p'] [['a'], ['b']] [['c'], ['d']]
     (fun i => i) (fun i => (i + 7 : ℤ)) (by decide)⟩

/-!
## Ordering of the assembled context
-/

/-- Claim C5: on a non-empty chunk list `formatContext` sorts the chunks
(stably) ascending by the `chunkIndex` payload field with a missing index
sorting after every present index, and returns the chunk texts joined
with newline separators in that order. -/
theorem formatContext_sorts_and_joins (chunks : List RetrievedChunk)
    (h : chunks ≠ []) :
    List.Perm (List.insertionSort chunkLE chunks) chunks ∧
    List.Sorted chunkLE (List.insertionSort chunkLE chunks) ∧
    formatContext chunks =
      List.intercalate ['\n'] ((List.insertionSort chunkLE chunks).map textOf) := by
  refine ⟨List.perm_insertionSort chunkLE chunks,
    List.sorted_insertionSort chunkLE chunks, ?_⟩
  have hne : ¬ chunks.length = 0 := by simpa using h
  simp [formatContext, hne]

/-- Witness for C5: chunks with indices [2,0,1] assemble, after sorting,
as text0 + newline + text1 + newline + text2. -/
theorem formatContext_sorts_and_joins_witness :
    (([⟨some ⟨some 2, some ("text2".toList)⟩⟩, ⟨some ⟨some 0, some ("text0".toList)⟩⟩,
        ⟨some ⟨some 1, some ("text1".toList)⟩⟩] : List RetrievedChunk) ≠ []) ∧
    (List.Perm
      (List.insertionSort chunkLE
        [⟨some ⟨some 2, some ("text2".toList)⟩⟩, ⟨some ⟨some 0, some ("text0".toList)⟩⟩,
          ⟨some ⟨some 1, some ("text1".toList)⟩⟩])
      [⟨some ⟨some 2, some ("text2".toList)⟩⟩, ⟨some ⟨some 0, some ("text0".toList)⟩⟩,
        ⟨some ⟨some 1, some ("text1".toList)⟩⟩] ∧
     List.Sorted chunkLE
      (List.insertionSort chunkLE
        [⟨some ⟨some 2, some ("text2".toList)⟩⟩, ⟨some ⟨some 0, some ("text0".toList)⟩⟩,
          ⟨some ⟨some 1, some ("text1".toList)⟩⟩]) ∧
     formatContext
        [⟨some ⟨some 2, some ("text2".toList)⟩⟩, ⟨some ⟨some 0, some ("text0".toList)⟩⟩,
          ⟨some ⟨some 1, some ("text1".toList)⟩⟩] =
       List.intercalate ['\n']
        ((List.insertionSort chunkLE
          [⟨some ⟨some 2, some ("text2".toList)⟩⟩, ⟨some ⟨some 0, some ("text0".toList)⟩⟩,
            ⟨some ⟨some 1, some ("text1".toList)⟩⟩]).map textOf)) ∧
    formatContext
        [⟨some ⟨some 2, some ("text2".toList)⟩⟩, ⟨some ⟨some 0, some ("text0".toList)⟩⟩,
          ⟨some ⟨some 1, some ("text1".toList)⟩⟩] =
      "text0\ntext1\ntext2".toList :=
  ⟨by decide,
   formatContext_sorts_and_joins _ (by decide),
   by decide⟩

/-!
## Degenerate contexts from malformed points
-/

/-- Joining `n` empty strings with the newline separator yields `n - 1`
newline characters. -/
theorem intercalate_replicate_nil : ∀ n : ℕ,
    List.intercalate ['\n'] (List.replicate n ([] : Str)) = List.replicate (n - 1) '\n'
  | 0 => rfl
  | 1 => rfl
  | n + 2 => by
      have ih := intercalate_replicate_nil (n + 1)
      have h1 : List.replicate (n + 2) ([] : Str) = [] :: [] :: List.replicate n [] := rfl
      have h2 : List.replicate (n + 1) ([] : Str) = [] :: List.replicate n [] := rfl
      rw [h1]
      rw [h2] at ih
      simp only [List.intercalate] at ih ⊢
      rw [List.intersperse_cons_cons]
      simp only [List.flatten_cons, List.nil_append, List.singleton_append]
      rw [ih]
      simp [List.replicate_succ]

/-- Claim C10: on a non-empty chunk list in which every payload lacks a
`chunkText` field, `formatContext` returns the newline-join of empty
strings — never the no-data sentinel — and the empty string when the list
is a singleton. -/
theorem formatContext_all_missing_text (chunks : List RetrievedChunk)
    (hne : chunks ≠ [])
    (hmiss : ∀ c ∈ chunks, c.payload.bind ChunkPayload.chunkText = none) :
    formatContext chunks =
      List.intercalate ['\n'] (List.replicate chunks.length ([] : Str)) ∧
    formatContext chunks ≠ noDataSentinel ∧
    (chunks.length = 1 → formatContext chunks = []) := by
  have hlen0 : ¬ chunks.length = 0 := by simpa using hne
  have hmap : (List.insertionSort chunkLE chunks).map textOf =
      List.replicate chunks.length ([] : Str) := by
    rw [List.eq_replicate_iff]
    refine ⟨by simp [List.length_insertionSort], ?_⟩
    intro b hb
    obtain ⟨c, hc, hcb⟩ := List.mem_map.mp hb
    have hcmem : c ∈ chunks := (List.mem_insertionSort chunkLE).mp hc
    rw [← hcb]
    simp [textOf, hmiss c hcmem]
  have hform : formatContext chunks =
      List.intercalate ['\n'] (List.replicate chunks.length ([] : Str)) := by
    simp [formatContext, hlen0, hmap]
  have hrep : formatContext chunks = List.replicate (chunks.length - 1) '\n' := by
    rw [hform, intercalate_replicate_nil]
  refine ⟨hform, ?_, ?_⟩
  · rw [hrep]
    intro heq
    have hN : 'N' ∈ noDataSentinel := by decide
    rw [← heq] at hN
    have hN2 := List.eq_of_mem_replicate hN
    simp at hN2
  · intro h1
    rw [hrep, h1]
    rfl

/-- Witness for C10: a single malformed point (payload without
`chunkText`) produces the empty context, not the sentinel. -/
theorem formatContext_all_missing_text_witness :
    formatContext [⟨some ⟨some 0, none⟩⟩] =
      List.intercalate ['\n']
        (List.replicate (List.length ([⟨some ⟨some 0, none⟩⟩] : List RetrievedChunk))
          ([] : Str)) ∧
    formatContext [⟨some ⟨some 0, none⟩⟩] ≠ noDataSentinel ∧
    (List.length ([⟨some ⟨some 0, none⟩⟩] : List RetrievedChunk) = 1 →
      formatContext [⟨some ⟨some 0, none⟩⟩] = []) :=
  formatContext_all_missing_text [⟨some ⟨some 0, none⟩⟩] (by decide) (by decide)

/-!
## Failure surfacing of the fallback loop
-/

/-- A recorded rate-limit message is never the empty string. -/
theorem rateLimitMsg_ne_nil (name : Str) : rateLimitMsg name ≠ [] := by
  show ('R' :: (("ate limit hit on ".toList ++ name) ++ ['.'])) ≠ []
  exact List.cons_ne_nil _ _

/-- A recorded hard-failure message is never the empty string. -/
theorem hardFailMsg_ne_nil (name : Str) (status : ℕ) : hardFailMsg name status ≠ [] := by
  show ('M' :: ((("odel ".toList ++ name ++ " failed with status ".toList) ++
      (toString status).toList) ++ ['.'])) ≠ []
  exact List.cons_ne_nil _ _

/-- When every attempt is rate limited, the loop ends in failure carrying
the last attempt's rate-limit message. -/
theorem fallbackRun_all429 : ∀ (attempts : List (Str × LLMResponse)) (le : Option Str),
    (∀ a ∈ attempts, a.2.status = 429) →
    (fallbackRun attempts le).1 = LoopResult.failure (lastRateLimitReason attempts le) := by
  intro attempts
  induction attempts with
  | nil => intro le _; rfl
  | cons p rest ih =>
    intro le hall
    obtain ⟨name, resp⟩ := p
    have h429 : resp.status = 429 := hall (name, resp) (by simp)
    have hrest : ∀ a ∈ rest, a.2.status = 429 := fun a ha => hall a (by simp [ha])
    have hlast : lastRateLimitReason ((name, resp) :: rest) le =
        lastRateLimitReason rest (some (rateLimitMsg name)) := by
      cases rest with
      | nil => rfl
      | cons q qs =>
        simp only [lastRateLimitReason, List.getLast?_cons_cons]
        cases h : (q :: qs).getLast? with
        | none => simp [List.getLast?_eq_none_iff] at h
        | some a => rfl
    rw [hlast]
    simp only [fallbackRun, h429, if_true]
    exact ih (some (rateLimitMsg name)) hrest

/-- A hard failure after a rate-limited prefix ends the loop in failure
carrying the hard-failure message. -/
theorem fallbackRun_hardfail : ∀ (pre : List (Str × LLMResponse)) (name : Str)
    (resp : LLMResponse) (rest : List (Str × LLMResponse)) (le : Option Str),
    (∀ a ∈ pre, a.2.status = 429) → resp.status ≠ 429 → isOk resp.status = false →
    (fallbackRun (pre ++ (name, resp) :: rest) le).1 =
      LoopResult.failure (some (hardFailMsg name resp.status)) := by
  intro pre
  induction pre with
  | nil =>
    intro name resp rest le _ h429 hok
    simp [fallbackRun, h429, hok]
  | cons p pre' ih =>
    intro name resp rest le hall h429 hok
    obtain ⟨n, r⟩ := p
    have hr : r.status = 429 := hall (n, r) (by simp)
    simp only [List.cons_append, fallbackRun, hr, if_true]
    exact ih name resp rest _ (fun a ha => hall a (by simp [ha])) h429 hok

/-- Claim C8: when the fallback loop finishes without success, the route
returns HTTP 500 with the response string "System Error: " followed by
the last recorded reason — the rate-limit message of the last
rate-limited provider, or the hard-failure message — and the returned
answer string is never empty. -/
theorem askLLM_failure_surfaces_reason (attempts : List (Str × LLMResponse)) :
    (∀ name resp, attempts.getLast? = some (name, resp) →
      (∀ a ∈ attempts, a.2.status = 429) →
      askLLM attempts = ("System Error: ".toList ++ rateLimitMsg name, 500)) ∧
    (∀ pre name resp rest, attempts = pre ++ (name, resp) :: rest →
      (∀ a ∈ pre, a.2.status = 429) → resp.status ≠ 429 → isOk resp.status = false →
      askLLM attempts = ("System Error: ".toList ++ hardFailMsg name resp.status, 500)) ∧
    (∀ e, (fallbackRun attempts none).1 = LoopResult.failure e →
      (askLLM attempts).1 ≠ []) := by
  refine ⟨?_, ?_, ?_⟩
  · intro name resp hlast hall
    have h := fallbackRun_all429 attempts none hall
    have hlr : lastRateLimitReason attempts none = some (rateLimitMsg name) := by
      simp [lastRateLimitReason, hlast]
    rw [hlr] at h
    simp [askLLM, h, rateLimitMsg_ne_nil name]
  · intro pre name resp rest hsplit hall h429 hok
    subst hsplit
    have h := fallbackRun_hardfail pre name resp rest none hall h429 hok
    simp [askLLM, h, hardFailMsg_ne_nil name resp.status]
  · intro e he
    simp only [askLLM, he]
    cases e with
    | none =>
      intro h
      have := congrArg List.length h
      simp [defaultFailMsg] at this
    | some s =>
      by_cases hs : s = []
      · simp only [hs, if_pos rfl]
        intro h
        have := congrArg List.length h
        simp [defaultFailMsg] at this
      · simp only [if_neg hs]
        intro h
        have := congrArg List.length h
        simp at this

/-- Witness for C8: an all-rate-limited run surfaces the last provider's
rate-limit message; a hard failure surfaces the hard-failure message;
neither response string is empty. -/
theorem askLLM_failure_surfaces_reason_witness :
    askLLM [(['A'], ⟨429, none⟩), (['B'], ⟨429, none⟩)] =
      ("System Error: ".toList ++ rateLimitMsg ['B'], 500) ∧
    askLLM [(['A'], ⟨429, none⟩), (['B'], ⟨500, none⟩)] =
      ("System Error: ".toList ++ hardFailMsg ['B'] 500, 500) ∧
    (askLLM [(['A'], ⟨429, none⟩), (['B'], ⟨429, none⟩)]).1 ≠ [] :=
  ⟨(askLLM_failure_surfaces_reason [(['A'], ⟨429, none⟩), (['B'], ⟨429, none⟩)]).1
      ['B'] ⟨429, none⟩ (by decide) (by decide),
   (askLLM_failure_surfaces_reason [(['A'], ⟨429, none⟩), (['B'], ⟨500, none⟩)]).2.1
      [(['A'], ⟨429, none⟩)] ['B'] ⟨500, none⟩ [] rfl (by decide) (by decide) (by decide),
   (askLLM_failure_surfaces_reason [(['A'], ⟨429, none⟩), (['B'], ⟨429, none⟩)]).2.2
      (some (rateLimitMsg ['B'])) (by decide)⟩
